import Mathlib

/-!
Verification of the core logic of the HR recruitment tracker (src/app.py).

The Python source is shallowly embedded: every definition below is a direct
translation of the corresponding Python function or code block, with Python
dicts embedded as association lists, pandas DataFrames as Lean lists of
records, Python strings as Lean strings, and Python floats as rationals
(the claims under verification only concern exact sums of inputs, never
floating-point rounding).  Environment behaviour (the filesystem, the Excel
engine, form parsing) is embedded as explicit parameters where a claim
needs it.
-/

namespace HRRec

/-- Checks whether the first character list starts with the second one;
used to embed the Python substring test. -/
def startsWithList : List Char → List Char → Bool
  | _, [] => true
  | [], _ :: _ => false
  | a :: as, b :: bs => a = b && startsWithList as bs

/-- Embedding of the Python containment test on strings, over
explicit character lists: containsSeq needle hay decides whether needle
occurs contiguously inside hay. -/
def containsSeq (needle hay : List Char) : Bool :=
  match hay with
  | [] => needle.isEmpty
  | _ :: t => startsWithList hay needle || containsSeq needle t

/-- Embedding of the test that a keyword occurs in a string,
as used on the lowercased nationality. -/
def strContains (hay needle : String) : Bool :=
  containsSeq needle.toList hay.toList

/-- Embedding of Python str.strip() on a character list: leading and
trailing whitespace removed. -/
def trimChars (l : List Char) : List Char :=
  ((l.dropWhile Char.isWhitespace).reverse.dropWhile Char.isWhitespace).reverse

/-- Embedding of Python str.strip() on strings, written over the
character list so that it evaluates inside the kernel. -/
def strTrim (s : String) : String := (trimChars s.toList).asString

/-- Embedding of Python str.lower(), written over the character list so
that it evaluates inside the kernel. -/
def strLower (s : String) : String := (s.toList.map Char.toLower).asString

-- -----------------------------------------------------------------
-- Offer template selection (src/app.py, offer_generate, lines 2636-2706)
-- -----------------------------------------------------------------

/-- Template file constant TPL_SAUDI (src/app.py line 54). -/
def TPL_SAUDI : String := "offer_saudi.xlsx"

/-- Template file constant TPL_PHIL_HO (src/app.py line 55). -/
def TPL_PHIL_HO : String := "offer_philippine_ho.xlsx"

/-- Template file constant TPL_PHIL_SITE (src/app.py line 56). -/
def TPL_PHIL_SITE : String := "offer_philippine_site.xlsx"

/-- Template file constant TPL_FOREIGN_HO (src/app.py line 57). -/
def TPL_FOREIGN_HO : String := "offer_foreign_ho.xlsx"

/-- Template file constant TPL_FOREIGN_SITE (src/app.py line 58). -/
def TPL_FOREIGN_SITE : String := "offer_foreign_site.xlsx"

/-- Embedding of base_map from offer_generate: the cell mapping common to
every template branch (src/app.py lines 2656-2663), as an association list
from field name to target cell. -/
def base_map : List (String × String) :=
  [("Role Interviewed For", "B4"),
   ("Candidate Name", "B5"),
   ("Gov ID / Iqama / Passport #", "B6"),
   ("Nationality", "B7"),
   ("Candidate Email", "B8"),
   ("Basic Salary", "B9")]

/-- Embedding of the decision tree of offer_generate (src/app.py lines
2665-2706).  The nationality argument is the raw form value; the source
applies .strip().lower() before testing (line 2637), embedded here as
strTrim and strLower.  The locationType argument is the form value after .strip()
(line 2638; the source default when the field is absent is the string
Head Office, which takes the non-Site branch like any value other than
Site).  Returns the selected template file name together with the cell
mapping built in that branch. -/
def selectTemplate (nationality locationType : String) : String × List (String × String) :=
  let nat := strLower (strTrim nationality)
  if strContains nat "saudi" then
    (TPL_SAUDI, base_map ++ [("Total Package", "B12")])
  else if strContains nat "filipino" || strContains nat "philippines" then
    if locationType = "Site" then
      (TPL_PHIL_SITE,
        base_map ++ [("Monthly Fixed Allowance", "B10"),
                     ("Other Monthly Allowance", "B11"),
                     ("Total Package", "B12"),
                     ("Accommodation Allowance", "B13")])
    else
      (TPL_PHIL_HO, base_map ++ [("Total Package", "B13")])
  else
    if locationType = "Site" then
      (TPL_FOREIGN_SITE,
        base_map ++ [("Monthly Fixed Allowance", "B10"),
                     ("Other Monthly Allowance", "B11"),
                     ("Total Package", "B12")])
    else
      (TPL_FOREIGN_HO, base_map ++ [("Total Package", "B12")])

/-- Checks whether a cell mapping carries an entry for a given field. -/
def hasKey (m : List (String × String)) (k : String) : Bool :=
  m.any (fun p => p.1 = k)

-- -----------------------------------------------------------------
-- Total package computation (src/app.py, offer_generate, lines 2641-2652)
-- -----------------------------------------------------------------

/-- Lookup in the form payload, embedded as an association list, mirroring
a Python dict lookup that returns the first binding of the key. -/
def lookupForm (payload : List (String × String)) (k : String) : Option String :=
  (payload.find? (fun p => p.1 = k)).map (fun p => p.2)

/-- Embedding of the helper get_f of offer_generate (src/app.py lines
2641-2643): float(payload.get(key, "0") or 0).  A missing key yields the
default string 0; an empty string is falsy in Python, so it is replaced by
the number 0 before parsing; an unparsable string raises inside float and
the except arm returns 0.0.  The float-literal parser of Python is
embedded as the explicit parameter parse (returning none where float(s)
would raise); numbers are rationals. -/
def get_f (payload : List (String × String)) (parse : String → Option ℚ) (key : String) : ℚ :=
  let s := (lookupForm payload key).getD "0"
  if s = "" then 0 else (parse s).getD 0

/-- Embedding of the total-package sum of offer_generate (src/app.py lines
2645-2652): total_pkg = basic + accom + trans + fixed + other. -/
def total_pkg (payload : List (String × String)) (parse : String → Option ℚ) : ℚ :=
  get_f payload parse "Basic Salary"
    + get_f payload parse "Accommodation Allowance"
    + get_f payload parse "Transportation Allowance"
    + get_f payload parse "Monthly Fixed Allowance"
    + get_f payload parse "Other Monthly Allowance"

-- -----------------------------------------------------------------
-- Interviews table (src/app.py, route interviews, lines 2160-2387,
-- and the done/undo routes, lines 2413-2483)
-- -----------------------------------------------------------------

/-- Embedding of one row of the Interviews sheet, with the columns the
claims under verification concern.  The remaining columns written by the
source (ICS Path, Timestamp, Email, Created By) are bundled into the
extra field so that a row update still replaces every column, as the
source loop over new_row does. -/
structure InterviewRow where
  cid : String
  name : String
  position : String
  date : String
  time : String
  mode : String
  location : String
  meetingLink : String
  interviewer : String
  status : String
  extra : String
deriving DecidableEq, Repr

/-- Embedding of the caller-supplied interview form: the raw values of the
POST form fields read by the interviews route (src/app.py lines 2233-2262),
together with the candidate id and name parsed from the pick field. -/
structure InterviewForm where
  cid : String
  name : String
  position : String
  date : String
  time : String
  mode : String
  location : String
  meetingLink : String
  interviewer : String
  extra : String
deriving DecidableEq, Repr

/-- Fixed physical address stored for Onsite interviews
(src/app.py line 2286). -/
def onsiteLocation : String := "https://maps.app.goo.gl/WLVM69QkbntDG2Tq7"

/-- Embedding of the Mode policy of the interviews route (src/app.py lines
2284-2290): mode is the stripped form value; Onsite forces the fixed
location and an empty meeting link, any other mode takes the stripped
caller-supplied location and link. -/
def resolvedLocation (f : InterviewForm) : String :=
  if strTrim f.mode = "Onsite" then onsiteLocation else strTrim f.location

/-- Meeting-link half of the Mode policy (src/app.py lines 2284-2290). -/
def resolvedLink (f : InterviewForm) : String :=
  if strTrim f.mode = "Onsite" then "" else strTrim f.meetingLink

/-- Embedding of new_row of the interviews route (src/app.py lines
2314-2329): the row written for this save, with Status set from the
is_second flag (lines 2264-2267) and location and link resolved by the
Mode policy. -/
def interviewNewRow (f : InterviewForm) (isSecond : Bool) : InterviewRow :=
  { cid := f.cid
    name := f.name
    position := strTrim f.position
    date := strTrim f.date
    time := strTrim f.time
    mode := strTrim f.mode
    location := resolvedLocation f
    meetingLink := resolvedLink f
    interviewer := strTrim f.interviewer
    status := if isSecond then "Second Interview" else "First Interview"
    extra := f.extra }

/-- Embedding of the in-place update arm of the interviews route
(src/app.py lines 2336-2341): every column of the first row whose
Candidate ID matches is overwritten with the new row, and every other
row is untouched. -/
def updateFirst : List InterviewRow → InterviewRow → List InterviewRow
  | [], _ => []
  | x :: xs, r => if x.cid = r.cid then r :: xs else x :: updateFirst xs r

/-- Embedding of the write policy of the interviews route (src/app.py
lines 2331-2345): a first-round save for a candidate who already has a
row updates that candidate's first row in place; otherwise (a second-round
save, or a first-round save for a fresh candidate) the new row is
appended. -/
def saveInterview (iv : List InterviewRow) (isSecond : Bool) (r : InterviewRow) : List InterviewRow :=
  if !isSecond && iv.any (fun x => x.cid = r.cid) then updateFirst iv r
  else iv ++ [r]

/-- Runs a sequence of interview saves, each given by the raw form and the
is_second flag, against the Interviews table. -/
def runSaves (iv : List InterviewRow) : List (InterviewForm × Bool) → List InterviewRow
  | [] => iv
  | (f, b) :: rest => runSaves (saveInterview iv b (interviewNewRow f b)) rest

/-- Number of rows of the Interviews table holding a first-interview entry
for the given candidate. -/
def countFirst (iv : List InterviewRow) (c : String) : Nat :=
  (iv.filter (fun r => r.cid = c && r.status = "First Interview")).length

/-- Number of rows of the Interviews table holding a second-interview
entry for the given candidate. -/
def countSecond (iv : List InterviewRow) (c : String) : Nat :=
  (iv.filter (fun r => r.cid = c && r.status = "Second Interview")).length

/-- Embedding of the interview_done_first route (src/app.py lines
2413-2425): when the index addresses a row whose Status is First
Interview, that row's Status becomes First Interview Completed; any other
index or status leaves the table unchanged. -/
def interview_done_first (iv : List InterviewRow) (idx : Nat) : List InterviewRow :=
  match iv[idx]? with
  | none => iv
  | some r =>
    if r.status = "First Interview" then
      iv.set idx { r with status := "First Interview Completed" }
    else iv

/-- Embedding of the interview_undo_first route (src/app.py lines
2429-2441). -/
def interview_undo_first (iv : List InterviewRow) (idx : Nat) : List InterviewRow :=
  match iv[idx]? with
  | none => iv
  | some r =>
    if r.status = "First Interview Completed" then
      iv.set idx { r with status := "First Interview" }
    else iv

/-- Embedding of the interview_done_second route (src/app.py lines
2455-2467). -/
def interview_done_second (iv : List InterviewRow) (idx : Nat) : List InterviewRow :=
  match iv[idx]? with
  | none => iv
  | some r =>
    if r.status = "Second Interview" then
      iv.set idx { r with status := "Second Interview Completed" }
    else iv

/-- Embedding of the interview_undo_second route (src/app.py lines
2471-2483). -/
def interview_undo_second (iv : List InterviewRow) (idx : Nat) : List InterviewRow :=
  match iv[idx]? with
  | none => iv
  | some r =>
    if r.status = "Second Interview Completed" then
      iv.set idx { r with status := "Second Interview" }
    else iv

-- -----------------------------------------------------------------
-- Caller context and role gating (src/app.py, require_role lines 448-454)
-- -----------------------------------------------------------------

/-- Roles of the user store (src/app.py section AUTH). -/
inductive Role | admin | hr | requestor
deriving DecidableEq, Repr

/-- Caller context: none embeds an unauthenticated session (current_user
returns None), some r a session whose user record carries role r. -/
def Ctx : Type := Option Role

/-- Embedding of require_role (src/app.py lines 448-454): false for an
unauthenticated caller or a role outside the allowed set. -/
def require_role (ctx : Ctx) (allowed : List Role) : Bool :=
  match ctx with
  | none => false
  | some r => allowed.contains r

/-- Effect of the interview_done_first route on the Interviews table as a
function of the caller context: the source route (src/app.py lines
2413-2425) performs no login or role check, so the context is unused. -/
def doneFirstRoute (_ctx : Ctx) (iv : List InterviewRow) (idx : Nat) : List InterviewRow :=
  interview_done_first iv idx

/-- Effect of interview_undo_first (src/app.py lines 2429-2441, no role
check) as a function of the caller context. -/
def undoFirstRoute (_ctx : Ctx) (iv : List InterviewRow) (idx : Nat) : List InterviewRow :=
  interview_undo_first iv idx

/-- Effect of interview_done_second (src/app.py lines 2455-2467, no role
check) as a function of the caller context. -/
def doneSecondRoute (_ctx : Ctx) (iv : List InterviewRow) (idx : Nat) : List InterviewRow :=
  interview_done_second iv idx

/-- Effect of interview_undo_second (src/app.py lines 2471-2483, no role
check) as a function of the caller context. -/
def undoSecondRoute (_ctx : Ctx) (iv : List InterviewRow) (idx : Nat) : List InterviewRow :=
  interview_undo_second iv idx

/-- Effect of the interview_delete route on the Interviews table
(src/app.py lines 2390-2411): gated by require_role admin hr; with the
rights it drops the addressed row, otherwise the table is unchanged. -/
def interviewDeleteRoute (ctx : Ctx) (iv : List InterviewRow) (idx : Nat) : List InterviewRow :=
  if require_role ctx [Role.admin, Role.hr] then
    if iv.isEmpty then iv
    else if idx < iv.length then iv.eraseIdx idx
    else iv
  else iv

-- -----------------------------------------------------------------
-- Candidate folder naming (src/app.py, candidate_root, lines 172-174)
-- -----------------------------------------------------------------

/-- Character filter of candidate_root (src/app.py line 173): keeps
alphanumerics, space, underscore and hyphen.  Python str.isalnum is
embedded as Char.isAlphanum. -/
def keepChar (c : Char) : Bool :=
  c.isAlphanum || c = ' ' || c = '_' || c = '-'

/-- Safe-name computation of candidate_root (src/app.py line 173): filter
the name through keepChar, strip, then replace every space by an
underscore. -/
def safeNameChars (name : String) : List Char :=
  (trimChars (name.toList.filter keepChar)).map (fun c => if c = ' ' then '_' else c)

/-- Embedding of candidate_root (src/app.py lines 172-174), reduced to the
folder name itself (the source joins it under the fixed attachments
directory; folder_display_name at line 181 recovers exactly this
basename). -/
def candidate_root (name cid : String) : String :=
  (safeNameChars name).asString ++ "_" ++ cid

/-- Folder-name derivation as the claim words it: keep letters, digits,
space, underscore, hyphen; replace spaces with underscores; append an
underscore and the id.  Written from the claim text, to be compared with
candidate_root. -/
def folderNameClaim (name cid : String) : String :=
  ((name.toList.filter keepChar).map (fun c => if c = ' ' then '_' else c)).asString
    ++ "_" ++ cid

/-- Folder-name derivation as the claim amended by the counterexample:
identical to folderNameClaim except that leading and trailing spaces are
trimmed after filtering and before the space-to-underscore replacement. -/
def folderNameAmended (name cid : String) : String :=
  ((((name.toList.filter keepChar).dropWhile (fun c => c = ' ')).reverse.dropWhile
      (fun c => c = ' ')).reverse.map (fun c => if c = ' ' then '_' else c)).asString
    ++ "_" ++ cid

-- -----------------------------------------------------------------
-- Tabular store adapter (src/app.py, _excel_read lines 184-188,
-- _excel_write lines 190-201)
-- -----------------------------------------------------------------

/-- Tables of the workbook, as lists of rows of cells. -/
def Table : Type := List (List String)

/-- State of the workbook file seen by the adapter: missing, unreadable,
or a list of named sheets. -/
inductive WorkbookState
  | absent
  | corrupt
  | ok (sheets : List (String × Table))

/-- Embedding of _excel_read (src/app.py lines 184-188): pd.read_excel
raises when the file is missing or corrupt or the named sheet does not
exist, and the except arm returns an empty DataFrame; otherwise the named
sheet is returned. -/
def _excel_read (wb : WorkbookState) (sheet : String) : Table :=
  match wb with
  | .absent => []
  | .corrupt => []
  | .ok sheets =>
    match sheets.find? (fun p => p.1 = sheet) with
    | none => []
    | some p => p.2

/-- Outcome of one write attempt by the Excel engine: the save succeeds,
the file is locked by another writer (PermissionError), or some other
exception is raised. -/
inductive Attempt | success | locked | fatal
deriving DecidableEq, Repr

/-- Retry loop of _excel_write (src/app.py lines 190-201), with the
engine's behaviour at each attempt given by env: attempt i succeeds and
returns True; or raises PermissionError, sleeps the fixed delay, and
continues with the next of the remaining tries; or raises another
exception and breaks; after the loop False is returned.  The second
component counts the sleeps performed, each of the fixed delay. -/
def excelWriteGo (env : Nat → Attempt) : Nat → Nat → Bool × Nat
  | _, 0 => (false, 0)
  | i, n + 1 =>
    match env i with
    | .success => (true, 0)
    | .locked =>
      let r := excelWriteGo env (i + 1) n
      (r.1, r.2 + 1)
    | .fatal => (false, 0)

/-- Fixed retry bound of _excel_write (src/app.py line 190, retries=3). -/
def writeRetries : Nat := 3

/-- Fixed inter-attempt delay of _excel_write in seconds
(src/app.py line 190, delay=0.7). -/
def writeDelay : ℚ := 7 / 10

/-- Embedding of _excel_write (src/app.py lines 190-201): three attempts,
sleeping the fixed delay after each PermissionError; returns whether a
save succeeded together with the number of sleeps performed. -/
def _excel_write (env : Nat → Attempt) : Bool × Nat :=
  excelWriteGo env 0 writeRetries

/-- Sheet replacement performed by one successful save of _excel_write:
the source opens the workbook with mode append and if_sheet_exists
replace (src/app.py line 194), so the named sheet's contents are replaced
wholesale and every other sheet is kept; a sheet not present yet is
added. -/
def writeSheet (sheets : List (String × Table)) (sheet : String) (t : Table) :
    List (String × Table) :=
  if sheets.any (fun p => p.1 = sheet) then
    sheets.map (fun p => if p.1 = sheet then (sheet, t) else p)
  else sheets ++ [(sheet, t)]

-- -----------------------------------------------------------------
-- Candidates table and status transitions (src/app.py, screening_save
-- lines 2086-2110, interviews lines 2350-2357, offer_generate lines
-- 2757-2763)
-- -----------------------------------------------------------------

/-- Embedding of one row of the Candidates sheet, with the columns the
status claims concern; the remaining columns written by the source
(HR Owner, Next Action, timestamps, requestor fields) are bundled into
the extra field. -/
structure CandidateRow where
  cid : String
  name : String
  role : String
  nationality : String
  status : String
  extra : String
deriving DecidableEq, Repr

/-- Effect of screening_save on the Candidates sheet (src/app.py lines
2086-2110): every row whose Candidate ID matches is overwritten with the
new values, Status becoming Screening; a candidate with no row is
appended with Status Screening. -/
def screeningSaveCandidates (cd : List CandidateRow) (cid name role nat extra : String) :
    List CandidateRow :=
  if cd.any (fun r => r.cid = cid) then
    cd.map (fun r =>
      if r.cid = cid then
        { r with name := name, role := role, nationality := nat,
                 status := "Screening", extra := extra }
      else r)
  else cd ++ [⟨cid, name, role, nat, "Screening", extra⟩]

/-- Effect of an interview save on the Candidates sheet (src/app.py lines
2350-2357): when the candidate has a row, its Status becomes Interview;
otherwise nothing is written. -/
def interviewSetStatus (cd : List CandidateRow) (cid : String) : List CandidateRow :=
  if cd.any (fun r => r.cid = cid) then
    cd.map (fun r => if r.cid = cid then { r with status := "Interview" } else r)
  else cd

/-- Effect of offer generation on the Candidates sheet (src/app.py lines
2757-2763): when the candidate has a row, its Status becomes Offer
Issued; otherwise nothing is written. -/
def offerSetStatus (cd : List CandidateRow) (cid : String) : List CandidateRow :=
  if cd.any (fun r => r.cid = cid) then
    cd.map (fun r => if r.cid = cid then { r with status := "Offer Issued" } else r)
  else cd

-- -----------------------------------------------------------------
-- Shortlist checklist (src/app.py, shortlist_save, lines 2943-3009,
-- normalize_choice lines 160-170)
-- -----------------------------------------------------------------

/-- YESNO choice list (src/app.py line 67). -/
def YESNO : List String := ["Yes", "No", "Other"]

/-- Embedding of normalize_choice for the YESNO list (src/app.py lines
160-170): a case-insensitive match against the allowed labels wins first,
then the yes and no synonym lists, and anything else is passed through
stripped. -/
def normalizeYesNo (val : String) : String :=
  let v := strTrim val
  let low := strLower v
  match YESNO.find? (fun a => low = strLower a) with
  | some a => a
  | none =>
    if ["y", "yes", "true", "1"].contains low then "Yes"
    else if ["n", "no", "false", "0", "", "none"].contains low then "No"
    else v

/-- Embedding of one row of the Shortlist_Request sheet. -/
structure ShortItem where
  cid : String
  name : String
  item : String
  recv : String
  notes : String
  mapped : String
deriving DecidableEq, Repr

/-- Submitted checklist line of shortlist_save: the raw form values
item_i, recv_i, note_i, and the saved destination path of the uploaded
file map_i when one was posted with a non-empty filename (src/app.py
lines 2962-2975; the path is the target the source computes from the
candidate's attachment folder and the secured filename). -/
structure ShortForm where
  item : String
  recvReq : String
  note : String
  upload : Option String
deriving DecidableEq, Repr

/-- Cleanup applied by shortlist_save to a mapped-file value recovered
from the previous checklist (src/app.py lines 2980-2981): strip, and an
empty cell read back as the string nan becomes empty. -/
def normalizeMapped (s : String) : String :=
  let t := strTrim s
  if strLower t = "nan" then "" else t

/-- Received flag computed for one submitted line (src/app.py line 2983):
Yes whenever a file was uploaded, else the normalized submitted flag. -/
def procRecv (f : ShortForm) : String :=
  if f.upload.isSome then "Yes" else normalizeYesNo f.recvReq

/-- Mapped-file value computed for one submitted line (src/app.py lines
2966-2981): the uploaded file's path when one was posted; otherwise the
cleaned previous mapped value of the first previous row of this candidate
with exactly the same item name, and empty when there is none. -/
def procMapped (prevForCand : List ShortItem) (f : ShortForm) : String :=
  match f.upload with
  | some path => path
  | none =>
    if strTrim f.item = "" then ""
    else
      match prevForCand.filter (fun q => q.item = strTrim f.item) with
      | [] => ""
      | q :: _ => normalizeMapped q.mapped

/-- Rows built by the loop of shortlist_save (src/app.py lines 2961-2990):
one row per submitted line with a non-empty item name. -/
def buildRows (prevForCand : List ShortItem) (cid cname : String) :
    List ShortForm → List ShortItem
  | [] => []
  | f :: rest =>
    (if strTrim f.item = "" then [] else
      [⟨cid, cname, strTrim f.item, procRecv f, strTrim f.note, procMapped prevForCand f⟩])
      ++ buildRows prevForCand cid cname rest

/-- Value of all_rows at the end of the loop of shortlist_save
(src/app.py lines 2961-2997): the processed submitted lines, plus a fresh
row with flag No for a non-empty new_item. -/
def shortlistNewRows (tbl : List ShortItem) (cid cname : String)
    (forms : List ShortForm) (newItem : String) : List ShortItem :=
  buildRows (tbl.filter (fun q => q.cid = cid)) cid cname forms
    ++ (if strTrim newItem = "" then [] else
        [⟨cid, cname, strTrim newItem, "No", "", ""⟩])

/-- Embedding of shortlist_save (src/app.py lines 2943-3009): the
submitted lines are processed against the candidate's previous rows; a
non-empty new_item is appended as a fresh row with flag No; when nothing
was submitted the table is left unchanged (the source flashes Checklist
empty and does not write); otherwise every previous row of the candidate
is dropped and the new rows are appended. -/
def shortlist_save (tbl : List ShortItem) (cid cname : String)
    (forms : List ShortForm) (newItem : String) : List ShortItem :=
  let allRows := shortlistNewRows tbl cid cname forms newItem
  if allRows.isEmpty then tbl
  else (tbl.filter (fun q => !(q.cid = cid))) ++ allRows

-- -----------------------------------------------------------------
-- Helper lemmas
-- -----------------------------------------------------------------

theorem updateFirst_length (iv : List InterviewRow) (r : InterviewRow) :
    (updateFirst iv r).length = iv.length := by
  induction iv with
  | nil => rfl
  | cons x xs ih =>
    simp only [updateFirst]
    split <;> simp [ih]

theorem any_false_filter_nil (iv : List InterviewRow) (c : String)
    (h : iv.any (fun x => x.cid = c) = false) :
    iv.filter (fun x => x.cid = c) = [] := by
  refine List.filter_eq_nil_iff.2 ?_
  intro a ha
  have := List.any_eq_false.1 h a ha
  simpa using this

theorem updateFirst_filter_self (iv : List InterviewRow) (r : InterviewRow)
    (h : iv.any (fun x => x.cid = r.cid) = true) :
    (updateFirst iv r).filter (fun x => x.cid = r.cid)
      = r :: (iv.filter (fun x => x.cid = r.cid)).tail := by
  induction iv with
  | nil => simp at h
  | cons x xs ih =>
    by_cases hx : x.cid = r.cid
    · simp [updateFirst, hx, List.filter_cons]
    · have hxs : xs.any (fun y => y.cid = r.cid) = true := by
        rcases List.any_eq_true.1 h with ⟨a, ha, hp⟩
        rcases List.mem_cons.1 ha with rfl | ha2
        · exact absurd (by simpa using hp) hx
        · exact List.any_eq_true.2 ⟨a, ha2, hp⟩
      simp [updateFirst, hx, List.filter_cons, ih hxs]

theorem updateFirst_filter_other (iv : List InterviewRow) (r : InterviewRow) (c : String)
    (h : c ≠ r.cid) :
    (updateFirst iv r).filter (fun x => x.cid = c) = iv.filter (fun x => x.cid = c) := by
  induction iv with
  | nil => rfl
  | cons x xs ih =>
    by_cases hx : x.cid = r.cid
    · have hxc : ¬ x.cid = c := by
        rw [hx]; exact fun hrc => h hrc.symm
      have hrc : ¬ r.cid = c := fun hrc => h hrc.symm
      simp [updateFirst, hx, List.filter_cons, hxc, hrc]
    · simp [updateFirst, hx, List.filter_cons, ih]

theorem mem_tail_append_singleton {α : Type} (l : List α) (a x : α)
    (h : x ∈ (l ++ [a]).tail) : x ∈ l.tail ∨ x = a := by
  cases l with
  | nil => simp at h
  | cons y ys =>
    simp only [List.cons_append, List.tail_cons] at h
    rcases List.mem_append.1 h with h1 | h1
    · exact Or.inl h1
    · simp at h1; exact Or.inr h1

/-- Invariant of the Interviews table under save operations: in the list
of a candidate's rows, only the earliest row may hold the status First
Interview. -/
def tailNoFirst (iv : List InterviewRow) : Prop :=
  ∀ c : String, ∀ x ∈ (iv.filter (fun r => r.cid = c)).tail,
    x.status ≠ "First Interview"

theorem tailNoFirst_nil : tailNoFirst [] := by
  intro c x hx
  simp at hx

theorem tailNoFirst_append (iv : List InterviewRow) (r : InterviewRow)
    (h : tailNoFirst iv)
    (hr : r.status ≠ "First Interview" ∨ iv.filter (fun x => x.cid = r.cid) = []) :
    tailNoFirst (iv ++ [r]) := by
  intro c x hx
  rw [List.filter_append] at hx
  by_cases hc : r.cid = c
  · have hfr : List.filter (fun x => x.cid = c) [r] = [r] := by
      simp [List.filter_cons, hc]
    rw [hfr] at hx
    rcases mem_tail_append_singleton _ _ _ hx with h1 | h1
    · exact h c x h1
    · subst h1
      rcases hr with h2 | h2
      · exact h2
      · rw [← hc] at hx
        rw [h2] at hx
        simp at hx
  · have hfr : List.filter (fun x => x.cid = c) [r] = [] := by
      simp [List.filter_cons, hc]
    rw [hfr, List.append_nil] at hx
    exact h c x hx

theorem tailNoFirst_save (iv : List InterviewRow) (b : Bool) (f : InterviewForm)
    (h : tailNoFirst iv) :
    tailNoFirst (saveInterview iv b (interviewNewRow f b)) := by
  cases b with
  | true =>
    have hs : saveInterview iv true (interviewNewRow f true)
        = iv ++ [interviewNewRow f true] := by
      simp [saveInterview]
    rw [hs]
    refine tailNoFirst_append iv _ h (Or.inl ?_)
    simp [interviewNewRow]
  | false =>
    set r := interviewNewRow f false with hrdef
    by_cases hany : iv.any (fun x => x.cid = r.cid) = true
    · have hs : saveInterview iv false r = updateFirst iv r := by
        simp [saveInterview, hany]
      rw [hs]
      intro c x hx
      by_cases hc : c = r.cid
      · rw [hc, updateFirst_filter_self iv r hany] at hx
        simp only [List.tail_cons] at hx
        exact h r.cid x hx
      · rw [updateFirst_filter_other iv r c hc] at hx
        exact h c x hx
    · have hany2 : iv.any (fun x => x.cid = r.cid) = false := by
        simpa using hany
      have hs : saveInterview iv false r = iv ++ [r] := by
        simp [saveInterview, hany2]
      rw [hs]
      exact tailNoFirst_append iv r h (Or.inr (any_false_filter_nil iv _ hany2))

theorem runSaves_tailNoFirst (cmds : List (InterviewForm × Bool)) :
    ∀ iv : List InterviewRow, tailNoFirst iv → tailNoFirst (runSaves iv cmds) := by
  induction cmds with
  | nil => intro iv h; exact h
  | cons cmd rest ih =>
    intro iv h
    exact ih _ (tailNoFirst_save iv cmd.2 cmd.1 h)

theorem countFirst_le_one (iv : List InterviewRow) (c : String)
    (h : tailNoFirst iv) : countFirst iv c ≤ 1 := by
  have hsplit : iv.filter (fun r => r.cid = c && r.status = "First Interview")
      = (iv.filter (fun r => r.cid = c)).filter (fun r => r.status = "First Interview") := by
    rw [List.filter_filter]
    apply List.filter_congr
    intro a _
    exact Bool.and_comm _ _
  rw [countFirst, hsplit]
  cases hF : iv.filter (fun r => r.cid = c) with
  | nil => simp
  | cons y t =>
    have htail : ∀ x ∈ t, x.status ≠ "First Interview" := by
      intro x hx
      exact h c x (by rw [hF]; simpa using hx)
    have ht : t.filter (fun r => r.status = "First Interview") = [] := by
      refine List.filter_eq_nil_iff.2 ?_
      intro a ha
      simpa using htail a ha
    by_cases hy : y.status = "First Interview" <;>
      simp [List.filter_cons, hy, ht]

theorem countSecond_append (iv : List InterviewRow) (r : InterviewRow) (c : String) :
    countSecond (iv ++ [r]) c
      = countSecond iv c + (if r.cid = c ∧ r.status = "Second Interview" then 1 else 0) := by
  rw [countSecond, countSecond, List.filter_append, List.length_append]
  by_cases h1 : r.cid = c <;> by_cases h2 : r.status = "Second Interview" <;>
    simp [List.filter_cons, h1, h2]

theorem countSecond_runSaves_replicate (g : InterviewForm) (n : Nat) :
    ∀ iv : List InterviewRow,
      countSecond (runSaves iv (List.replicate n (g, true))) g.cid
        = countSecond iv g.cid + n := by
  induction n with
  | zero => intro iv; simp [runSaves]
  | succ m ih =>
    intro iv
    rw [List.replicate_succ]
    have hs : saveInterview iv true (interviewNewRow g true)
        = iv ++ [interviewNewRow g true] := by
      simp [saveInterview]
    simp only [runSaves, hs]
    rw [ih]
    have : countSecond (iv ++ [interviewNewRow g true]) g.cid
        = countSecond iv g.cid + 1 := by
      rw [countSecond_append]
      simp [interviewNewRow]
    rw [this]
    omega

theorem set_self_of_getElem? {α : Type} (l : List α) (i : Nat) (a : α)
    (h : l[i]? = some a) : l.set i a = l := by
  induction l generalizing i with
  | nil => simp at h
  | cons x xs ih =>
    cases i with
    | zero => simp at h; simp [h]
    | succ j =>
      simp only [List.getElem?_cons_succ] at h
      simp [List.set_cons_succ, ih j h]

theorem keepChar_not_space_ws (c : Char) (h : keepChar c = true) (hc : c ≠ ' ') :
    c.isWhitespace = false := by
  cases hw : c.isWhitespace
  · rfl
  · exfalso
    have hcases : ((c = ' ' ∨ c = '\t') ∨ c = '\r') ∨ c = '\n' := by
      simpa [Char.isWhitespace] using hw
    rcases hcases with ((rfl | rfl) | rfl) | rfl
    · exact hc rfl
    · exact absurd h (by decide)
    · exact absurd h (by decide)
    · exact absurd h (by decide)

theorem dropWhile_ws_space (l : List Char) (h : ∀ c ∈ l, keepChar c = true) :
    l.dropWhile Char.isWhitespace = l.dropWhile (fun c => c = ' ') := by
  induction l with
  | nil => rfl
  | cons x xs ih =>
    have hx := h x (List.mem_cons_self x xs)
    have htl : ∀ c ∈ xs, keepChar c = true := fun c hc => h c (List.mem_cons_of_mem x hc)
    by_cases hs : x = ' '
    · subst hs
      rw [List.dropWhile_cons, List.dropWhile_cons]
      simp [ih htl]
    · have hw := keepChar_not_space_ws x hx hs
      rw [List.dropWhile_cons, List.dropWhile_cons]
      simp [hw, hs]

theorem mem_trimChars {c : Char} {l : List Char} (h : c ∈ trimChars l) : c ∈ l := by
  unfold trimChars at h
  rw [List.mem_reverse] at h
  have h2 := (List.dropWhile_sublist _).subset h
  rw [List.mem_reverse] at h2
  exact (List.dropWhile_sublist _).subset h2

-- -----------------------------------------------------------------
-- Claim theorems
-- -----------------------------------------------------------------

/-- C1: for every nationality string and location type (Head Office or
Site), offer generation selects exactly one of the five templates, by
first-match order, with a case-insensitive substring match on nationality
(saudi first, then filipino or philippines split by location, then the
foreign templates split by location); the chosen mapping carries the
Monthly Fixed Allowance and Other Monthly Allowance cells exactly for the
two Site variants, and an Accommodation Allowance cell exactly for the
Philippine-Site variant. -/
theorem offer_template_selection (nationality locationType : String)
    (hloc : locationType = "Head Office" ∨ locationType = "Site") :
    ((selectTemplate nationality locationType).1 = TPL_SAUDI
      ∨ (selectTemplate nationality locationType).1 = TPL_PHIL_HO
      ∨ (selectTemplate nationality locationType).1 = TPL_PHIL_SITE
      ∨ (selectTemplate nationality locationType).1 = TPL_FOREIGN_HO
      ∨ (selectTemplate nationality locationType).1 = TPL_FOREIGN_SITE)
  ∧ (strContains (strLower (strTrim nationality)) "saudi" = true →
      (selectTemplate nationality locationType).1 = TPL_SAUDI)
  ∧ (strContains (strLower (strTrim nationality)) "saudi" = false →
      (strContains (strLower (strTrim nationality)) "filipino"
        || strContains (strLower (strTrim nationality)) "philippines") = true →
      (selectTemplate nationality locationType).1
        = if locationType = "Site" then TPL_PHIL_SITE else TPL_PHIL_HO)
  ∧ (strContains (strLower (strTrim nationality)) "saudi" = false →
      (strContains (strLower (strTrim nationality)) "filipino"
        || strContains (strLower (strTrim nationality)) "philippines") = false →
      (selectTemplate nationality locationType).1
        = if locationType = "Site" then TPL_FOREIGN_SITE else TPL_FOREIGN_HO)
  ∧ (hasKey (selectTemplate nationality locationType).2 "Monthly Fixed Allowance" = true
      ↔ ((selectTemplate nationality locationType).1 = TPL_PHIL_SITE
         ∨ (selectTemplate nationality locationType).1 = TPL_FOREIGN_SITE))
  ∧ (hasKey (selectTemplate nationality locationType).2 "Other Monthly Allowance" = true
      ↔ ((selectTemplate nationality locationType).1 = TPL_PHIL_SITE
         ∨ (selectTemplate nationality locationType).1 = TPL_FOREIGN_SITE))
  ∧ (hasKey (selectTemplate nationality locationType).2 "Accommodation Allowance" = true
      ↔ (selectTemplate nationality locationType).1 = TPL_PHIL_SITE) := by
  cases hs : strContains (strLower (strTrim nationality)) "saudi" <;>
    cases hf : strContains (strLower (strTrim nationality)) "filipino" <;>
      cases hp : strContains (strLower (strTrim nationality)) "philippines" <;>
        rcases hloc with h | h <;> subst h <;>
          simp [selectTemplate, hs, hf, hp, TPL_SAUDI, TPL_PHIL_HO, TPL_PHIL_SITE,
            TPL_FOREIGN_HO, TPL_FOREIGN_SITE, hasKey, base_map]

/-- Witness for C1: a Filipino nationality at a Site location selects the
Philippine-Site template. -/
theorem offer_template_selection_witness :
    (selectTemplate "Filipino" "Site").1
      = if ("Site" : String) = "Site" then TPL_PHIL_SITE else TPL_PHIL_HO :=
  (offer_template_selection "Filipino" "Site" (Or.inr rfl)).2.2.1 (by decide) (by decide)

/-- C2: the total package computed by offer_generate is the sum of the
five compensation components, a missing or unparsable (or empty, which
Python short-circuits to the number zero) component contributing exactly
zero and a parsable one contributing its parsed value; the computation is
a total function, so it never raises.  The hypothesis records that the
Python float parser maps the default string 0 to the number zero. -/
theorem total_package_spec (payload : List (String × String)) (parse : String → Option ℚ)
    (hparse : parse "0" = some 0) :
    (total_pkg payload parse
        = get_f payload parse "Basic Salary"
          + get_f payload parse "Accommodation Allowance"
          + get_f payload parse "Transportation Allowance"
          + get_f payload parse "Monthly Fixed Allowance"
          + get_f payload parse "Other Monthly Allowance")
  ∧ (∀ k, lookupForm payload k = none → get_f payload parse k = 0)
  ∧ (∀ k s, lookupForm payload k = some s → parse s = none → get_f payload parse k = 0)
  ∧ (∀ k s q, lookupForm payload k = some s → s ≠ "" → parse s = some q →
        get_f payload parse k = q) := by
  refine ⟨rfl, ?_, ?_, ?_⟩
  · intro k hk
    simp [get_f, hk, hparse]
  · intro k s hk hs
    by_cases he : s = "" <;> simp [get_f, hk, he, hs]
  · intro k s q hk hne hq
    simp [get_f, hk, hne, hq]

/-- Witness for C2: with a payload missing the allowance keys, a
component absent from the payload contributes zero. -/
theorem total_package_spec_witness :
    get_f [("Basic Salary", "x")] (fun s => if s = "0" then some 0 else none)
        "Other Monthly Allowance" = 0 :=
  (total_package_spec [("Basic Salary", "x")] (fun s => if s = "0" then some 0 else none)
      (by simp)).2.1 "Other Monthly Allowance" (by decide)

/-- C4 counterexample: the claim says a non-Onsite save stores the
caller-supplied location verbatim, but the source strips surrounding
whitespace (src/app.py line 2289), so a location with surrounding spaces
is not stored verbatim. -/
theorem interview_mode_verbatim_cex :
    (interviewNewRow
        ⟨"C1", "Jane", "Engineer", "2025-01-01", "10:00", "Online",
         " Meeting Room 5 ", "http://x", "Sam", ""⟩ false).location
      ≠ " Meeting Room 5 " := by
  decide

/-- C4 amended: a save with stripped mode Onsite stores the fixed
physical-address location and an empty meeting link, regardless of the
caller-supplied location and link; any other mode stores the
caller-supplied location and meeting link after stripping surrounding
whitespace (hence verbatim whenever they carry none). -/
theorem interview_mode_policy (f : InterviewForm) (b : Bool) (g : InterviewForm)
    (hmode : strTrim f.mode = "Onsite") (hgmode : strTrim g.mode ≠ "Onsite") :
    (interviewNewRow f b).location = onsiteLocation
  ∧ (interviewNewRow f b).meetingLink = ""
  ∧ (interviewNewRow g b).location = strTrim g.location
  ∧ (interviewNewRow g b).meetingLink = strTrim g.meetingLink := by
  refine ⟨?_, ?_, ?_, ?_⟩ <;>
    simp [interviewNewRow, resolvedLocation, resolvedLink, hmode, hgmode]

/-- Witness for C4 amended: a concrete Onsite save and a concrete Online
save exercise both halves of the policy. -/
theorem interview_mode_policy_witness :
    (interviewNewRow
        ⟨"C1", "n", "p", "d", "t", " Onsite ", "loc", "link", "i", ""⟩ false).location
        = onsiteLocation
  ∧ (interviewNewRow
        ⟨"C1", "n", "p", "d", "t", " Onsite ", "loc", "link", "i", ""⟩ false).meetingLink = ""
  ∧ (interviewNewRow
        ⟨"C2", "n", "p", "d", "t", "Online", " loc ", "link", "i", ""⟩ false).location
        = strTrim " loc "
  ∧ (interviewNewRow
        ⟨"C2", "n", "p", "d", "t", "Online", " loc ", "link", "i", ""⟩ false).meetingLink
        = strTrim "link" :=
  interview_mode_policy _ false _ (by decide) (by decide)

/-- C5 counterexample: the claim describes the folder name as filter,
space-replacement and id suffix only, but candidate_root also strips
leading and trailing whitespace after filtering (src/app.py line 173), so
a name with a trailing space refutes the claimed derivation. -/
theorem folder_name_cex : candidate_root "a " "1" ≠ folderNameClaim "a " "1" := by
  decide

/-- C5 amended: candidate_root keeps exactly the letters, digits, spaces,
underscores and hyphens of the name, trims leading and trailing spaces,
replaces the remaining spaces with underscores and appends an underscore
and the id (the derivation is a pure function, so determinism is
inherent); moreover every character of the safe-name part is a letter, a
digit, an underscore or a hyphen. -/
theorem candidate_root_amended (name cid : String) :
    candidate_root name cid = folderNameAmended name cid
  ∧ ∀ c ∈ safeNameChars name, (c.isAlphanum || c = '_' || c = '-') = true := by
  constructor
  · have hall : ∀ c ∈ name.toList.filter keepChar, keepChar c = true :=
      fun c hc => (List.mem_filter.1 hc).2
    have htrim : trimChars (name.toList.filter keepChar)
        = (((name.toList.filter keepChar).dropWhile (fun c => c = ' ')).reverse.dropWhile
            (fun c => c = ' ')).reverse := by
      unfold trimChars
      rw [dropWhile_ws_space _ hall]
      congr 1
      apply dropWhile_ws_space
      intro c hc
      rw [List.mem_reverse] at hc
      exact hall c ((List.dropWhile_sublist _).subset hc)
    unfold candidate_root folderNameAmended safeNameChars
    rw [htrim]
  · intro c hc
    simp only [safeNameChars] at hc
    rcases List.mem_map.1 hc with ⟨c0, hc0, rfl⟩
    have hkeep : keepChar c0 = true :=
      (List.mem_filter.1 (mem_trimChars hc0)).2
    by_cases hs : c0 = ' '
    · simp [hs]
    · simp only [if_neg hs]
      have : (c0.isAlphanum || c0 = ' ' || c0 = '_' || c0 = '-') = true := hkeep
      simp only [Bool.or_eq_true, decide_eq_true_eq] at this
      rcases this with ((ha | hsp) | hu) | hh
      · simp [ha]
      · exact absurd hsp hs
      · simp [hu]
      · simp [hh]

/-- Witness for C5 amended: a concrete character of the safe name of a
concrete candidate is alphanumeric, underscore or hyphen. -/
theorem candidate_root_amended_witness :
    ('J'.isAlphanum || 'J' = '_' || 'J' = '-') = true :=
  (candidate_root_amended "Jane Doe" "C1").2 'J' (by decide)

/-- C3: a first-round save for a candidate who already has a row updates
in place (the table length is unchanged and the rows of every other
candidate are untouched); a second-round save always appends a row whose
status is Second Interview; and over every sequence of saves from an
empty table a candidate holds at most one first-interview row, while a
run of n second-round saves yields n second-interview rows. -/
theorem interview_save_invariant (cmds : List (InterviewForm × Bool)) (c c2 : String)
    (iv : List InterviewRow) (f g : InterviewForm) (n : Nat)
    (hex : iv.any (fun x => x.cid = f.cid) = true)
    (hc2 : c2 ≠ f.cid) :
    countFirst (runSaves [] cmds) c ≤ 1
  ∧ (saveInterview iv false (interviewNewRow f false)).length = iv.length
  ∧ (saveInterview iv false (interviewNewRow f false)).filter (fun x => x.cid = c2)
      = iv.filter (fun x => x.cid = c2)
  ∧ saveInterview iv true (interviewNewRow g true) = iv ++ [interviewNewRow g true]
  ∧ (interviewNewRow g true).status = "Second Interview"
  ∧ countSecond (runSaves [] (List.replicate n (g, true))) g.cid = n := by
  have hcid : (interviewNewRow f false).cid = f.cid := rfl
  have hex2 : iv.any (fun x => x.cid = (interviewNewRow f false).cid) = true := by
    rw [hcid]; exact hex
  have hupd : saveInterview iv false (interviewNewRow f false)
      = updateFirst iv (interviewNewRow f false) := by
    simp [saveInterview, hex2]
  refine ⟨?_, ?_, ?_, ?_, rfl, ?_⟩
  · exact countFirst_le_one _ c (runSaves_tailNoFirst cmds [] tailNoFirst_nil)
  · rw [hupd]; exact updateFirst_length iv _
  · rw [hupd]
    exact updateFirst_filter_other iv _ c2 (by rw [hcid]; exact hc2)
  · simp [saveInterview]
  · have h := countSecond_runSaves_replicate g n []
    simpa [countSecond] using h

/-- Witness for C3: a first-round save over a one-row table for the same
candidate keeps the table length. -/
theorem interview_save_invariant_witness :
    (saveInterview
        [⟨"C1", "n", "p", "d", "t", "Online", "L", "M", "I", "First Interview", ""⟩]
        false
        (interviewNewRow ⟨"C1", "n", "p", "d2", "t2", "Online", "L", "M", "I", ""⟩ false)).length
      = [(⟨"C1", "n", "p", "d", "t", "Online", "L", "M", "I", "First Interview", ""⟩ :
          InterviewRow)].length :=
  (interview_save_invariant [] "x" "y"
      [⟨"C1", "n", "p", "d", "t", "Online", "L", "M", "I", "First Interview", ""⟩]
      ⟨"C1", "n", "p", "d2", "t2", "Online", "L", "M", "I", ""⟩
      ⟨"C1", "n", "p", "d2", "t2", "Online", "L", "M", "I", ""⟩ 0
      (by decide) (by decide)).2.1

theorem excelWriteGo_succ_success (env : Nat → Attempt) (i n : Nat)
    (h : env i = Attempt.success) :
    excelWriteGo env i (n + 1) = (true, 0) := by
  simp [excelWriteGo, h]

theorem excelWriteGo_succ_locked (env : Nat → Attempt) (i n : Nat)
    (h : env i = Attempt.locked) :
    excelWriteGo env i (n + 1)
      = ((excelWriteGo env (i + 1) n).1, (excelWriteGo env (i + 1) n).2 + 1) := by
  simp [excelWriteGo, h]

theorem excelWriteGo_success (env : Nat → Attempt) :
    ∀ n k i : Nat, k < n → (∀ j, j < k → env (i + j) = Attempt.locked) →
      env (i + k) = Attempt.success → excelWriteGo env i n = (true, k) := by
  intro n
  induction n with
  | zero =>
    intro k i hk _ _
    exact absurd hk (Nat.not_lt_zero k)
  | succ m ih =>
    intro k i hk hpre hsucc
    cases k with
    | zero =>
      have h0 : env i = Attempt.success := by simpa using hsucc
      rw [excelWriteGo_succ_success env i m h0]
    | succ j =>
      have h0 : env i = Attempt.locked := by
        have h := hpre 0 (Nat.succ_pos j)
        simpa using h
      rw [excelWriteGo_succ_locked env i m h0]
      have hpre2 : ∀ j2, j2 < j → env (i + 1 + j2) = Attempt.locked := by
        intro j2 hj2
        have e : i + 1 + j2 = i + (j2 + 1) := by omega
        rw [e]
        exact hpre (j2 + 1) (by omega)
      have hsucc2 : env (i + 1 + j) = Attempt.success := by
        have e : i + 1 + j = i + (j + 1) := by omega
        rw [e]; exact hsucc
      rw [ih j (i + 1) (by omega) hpre2 hsucc2]

theorem excelWrite_all_locked (env : Nat → Attempt)
    (h : ∀ i, i < writeRetries → env i = Attempt.locked) :
    _excel_write env = (false, writeRetries) := by
  have h0 := h 0 (by decide)
  have h1 := h 1 (by decide)
  have h2 := h 2 (by decide)
  show excelWriteGo env 0 3 = (false, 3)
  rw [show (3 : Nat) = 2 + 1 from rfl, excelWriteGo_succ_locked env 0 2 h0]
  rw [show (2 : Nat) = 1 + 1 from rfl, excelWriteGo_succ_locked env 1 1 h1]
  rw [show (1 : Nat) = 0 + 1 from rfl, excelWriteGo_succ_locked env 2 0 h2]
  rfl

theorem find_writeSheet_self (sheets : List (String × Table)) (sheet : String) (t : Table) :
    (writeSheet sheets sheet t).find? (fun p => p.1 = sheet) = some (sheet, t) := by
  unfold writeSheet
  cases hany : sheets.any (fun p => p.1 = sheet) with
  | true =>
    rw [if_pos rfl]
    induction sheets with
    | nil => simp at hany
    | cons x xs ih =>
      by_cases hx : x.1 = sheet
      · simp [List.find?_cons, hx]
      · have hxs : xs.any (fun p => p.1 = sheet) = true := by
          rcases List.any_eq_true.1 hany with ⟨a, ha, hp⟩
          rcases List.mem_cons.1 ha with rfl | ha2
          · exact absurd (by simpa using hp) hx
          · exact List.any_eq_true.2 ⟨a, ha2, hp⟩
        simp only [List.map_cons, if_neg hx]
        rw [List.find?_cons]
        simp [hx, ih hxs]
  | false =>
    rw [if_neg (by simp)]
    have hnone : sheets.find? (fun p => p.1 = sheet) = none := by
      refine List.find?_eq_none.2 ?_
      intro x hx
      have hfa := List.any_eq_false.1 hany x hx
      simpa using hfa
    rw [List.find?_append, hnone]
    simp [List.find?_cons]

theorem find_writeSheet_other (sheets : List (String × Table)) (sheet s2 : String)
    (t : Table) (hne : s2 ≠ sheet) :
    (writeSheet sheets sheet t).find? (fun p => p.1 = s2)
      = sheets.find? (fun p => p.1 = s2) := by
  have hsheet : ¬ (sheet = s2) := fun e => hne e.symm
  unfold writeSheet
  cases hany : sheets.any (fun p => p.1 = sheet) with
  | true =>
    rw [if_pos rfl]
    clear hany
    induction sheets with
    | nil => rfl
    | cons x xs ih =>
      by_cases hx : x.1 = sheet
      · have hxs2 : ¬ x.1 = s2 := by rw [hx]; exact hsheet
        simp only [List.map_cons, if_pos hx]
        rw [List.find?_cons, List.find?_cons]
        simp [hsheet, hxs2, ih]
      · simp only [List.map_cons, if_neg hx]
        rw [List.find?_cons, List.find?_cons]
        by_cases hx2 : x.1 = s2 <;> simp [hx2, ih]
  | false =>
    rw [if_neg (by simp), List.find?_append]
    have hlast : List.find? (fun p => p.1 = s2) [(sheet, t)] = none := by
      simp [List.find?_cons, hsheet]
    rw [hlast]
    cases sheets.find? (fun p => p.1 = s2) <;> simp

/-- C6: the store adapter's read returns an empty table when the workbook
is absent or corrupt or the named sheet is missing (and, being a total
function, never raises); one successful write replaces the named sheet
wholesale and preserves every other sheet; and the write loop retries up
to 3 attempts, sleeping the fixed 0.7-second delay after each transient
lock, failing after exhausting the retries and succeeding at the first
unlocked attempt. -/
theorem store_adapter (sheetsA sheetsB : List (String × Table)) (sheet s2 : String)
    (t : Table) (env envOk : Nat → Attempt) (k : Nat)
    (hmiss : sheetsA.find? (fun p => p.1 = sheet) = none)
    (hne : s2 ≠ sheet)
    (hlock : ∀ i, i < writeRetries → env i = Attempt.locked)
    (hpre : ∀ i, i < k → envOk i = Attempt.locked)
    (hsucc : envOk k = Attempt.success) (hk : k < writeRetries) :
    _excel_read WorkbookState.absent sheet = []
  ∧ _excel_read WorkbookState.corrupt sheet = []
  ∧ _excel_read (WorkbookState.ok sheetsA) sheet = []
  ∧ _excel_read (WorkbookState.ok (writeSheet sheetsB sheet t)) sheet = t
  ∧ _excel_read (WorkbookState.ok (writeSheet sheetsB sheet t)) s2
      = _excel_read (WorkbookState.ok sheetsB) s2
  ∧ _excel_write env = (false, writeRetries)
  ∧ _excel_write envOk = (true, k) := by
  refine ⟨rfl, rfl, ?_, ?_, ?_, ?_, ?_⟩
  · simp [_excel_read, hmiss]
  · simp [_excel_read, find_writeSheet_self]
  · simp [_excel_read, find_writeSheet_other sheetsB sheet s2 t hne]
  · exact excelWrite_all_locked env hlock
  · refine excelWriteGo_success envOk writeRetries k 0 hk ?_ ?_
    · intro j hj
      simpa using hpre j hj
    · simpa using hsucc

/-- Witness for C6: with a one-sheet workbook and concrete environments,
a fully locked store fails after the three retries. -/
theorem store_adapter_witness :
    _excel_write (fun _ => Attempt.locked) = (false, writeRetries) :=
  (store_adapter [] [("Candidates", [["a"]])] "Interviews" "Candidates" [["b"]]
      (fun _ => Attempt.locked) (fun i => if i = 0 then Attempt.locked else Attempt.success) 1
      rfl (by decide) (fun _ _ => rfl)
      (by intro i hi
          have h0 : i = 0 := by omega
          subst h0
          rfl)
      rfl (by decide)).2.2.2.2.2.1

/-- C7: for a candidate present in the Candidates table, a screening save
sets their Status to Screening, an interview save sets it to Interview,
and offer generation sets it to Offer Issued. -/
theorem status_transitions (cd : List CandidateRow) (cid name role nat extra : String)
    (hpres : cd.any (fun r => r.cid = cid) = true) :
    (∀ r ∈ screeningSaveCandidates cd cid name role nat extra,
        r.cid = cid → r.status = "Screening")
  ∧ (∀ r ∈ interviewSetStatus cd cid, r.cid = cid → r.status = "Interview")
  ∧ (∀ r ∈ offerSetStatus cd cid, r.cid = cid → r.status = "Offer Issued") := by
  refine ⟨?_, ?_, ?_⟩
  · intro r hr hrc
    rw [screeningSaveCandidates, if_pos hpres] at hr
    rcases List.mem_map.1 hr with ⟨a, _, rfl⟩
    by_cases ha : a.cid = cid
    · simp [ha]
    · simp only [if_neg ha] at hrc ⊢
      exact absurd hrc ha
  · intro r hr hrc
    rw [interviewSetStatus, if_pos hpres] at hr
    rcases List.mem_map.1 hr with ⟨a, _, rfl⟩
    by_cases ha : a.cid = cid
    · simp [ha]
    · simp only [if_neg ha] at hrc ⊢
      exact absurd hrc ha
  · intro r hr hrc
    rw [offerSetStatus, if_pos hpres] at hr
    rcases List.mem_map.1 hr with ⟨a, _, rfl⟩
    by_cases ha : a.cid = cid
    · simp [ha]
    · simp only [if_neg ha] at hrc ⊢
      exact absurd hrc ha

/-- Witness for C7: a concrete present candidate gets Status Offer Issued
from offer generation. -/
theorem status_transitions_witness :
    (⟨"C1", "Jane", "Eng", "Saudi", "Offer Issued", ""⟩ : CandidateRow).status
      = "Offer Issued" :=
  (status_transitions [⟨"C1", "Jane", "Eng", "Saudi", "Interview", ""⟩]
      "C1" "Jane" "Eng" "Saudi" "" (by decide)).2.2
    ⟨"C1", "Jane", "Eng", "Saudi", "Offer Issued", ""⟩ (by decide) (by decide)

theorem buildRows_cid (prev : List ShortItem) (cid cname : String)
    (forms : List ShortForm) :
    ∀ x ∈ buildRows prev cid cname forms, x.cid = cid := by
  induction forms with
  | nil => intro x hx; simp [buildRows] at hx
  | cons f rest ih =>
    intro x hx
    simp only [buildRows] at hx
    rcases List.mem_append.1 hx with h1 | h1
    · by_cases he : strTrim f.item = ""
      · rw [if_pos he] at h1; simp at h1
      · rw [if_neg he] at h1
        simp only [List.mem_singleton] at h1
        subst h1; rfl
    · exact ih x h1

theorem shortlistNewRows_cid (tbl : List ShortItem) (cid cname : String)
    (forms : List ShortForm) (newItem : String) :
    ∀ x ∈ shortlistNewRows tbl cid cname forms newItem, x.cid = cid := by
  intro x hx
  rcases List.mem_append.1 hx with h1 | h1
  · exact buildRows_cid _ cid cname forms x h1
  · by_cases he : strTrim newItem = ""
    · rw [if_pos he] at h1; simp at h1
    · rw [if_neg he] at h1
      simp only [List.mem_singleton] at h1
      subst h1; rfl

/-- C8: a submitted item with an uploaded file gets received flag Yes
regardless of the submitted flag; a submitted item without an upload
whose trimmed name exactly matches a previous item of the candidate keeps
that previous item's mapped-file path (stated for a stored path, which is
trimmed and not the pandas nan artifact), and gets an empty mapped-file
when no previous item matches; and a non-empty save replaces the
candidate's entire previous item set while leaving other candidates'
rows untouched. -/
theorem shortlist_policy (tbl : List ShortItem) (cid cname : String)
    (forms : List ShortForm) (newItem : String)
    (f g : ShortForm) (p : String) (q : ShortItem) (rest : List ShortItem)
    (hup : f.upload = some p)
    (hgup : g.upload = none) (hgitem : strTrim g.item ≠ "")
    (hmatch : (tbl.filter (fun x => x.cid = cid)).filter
        (fun x => x.item = strTrim g.item) = q :: rest)
    (hqtrim : strTrim q.mapped = q.mapped) (hqnan : strLower q.mapped ≠ "nan")
    (hnonempty : shortlistNewRows tbl cid cname forms newItem ≠ []) :
    procRecv f = "Yes"
  ∧ procMapped (tbl.filter (fun x => x.cid = cid)) g = q.mapped
  ∧ (∀ h2 : ShortForm, h2.upload = none →
        (tbl.filter (fun x => x.cid = cid)).filter
            (fun x => x.item = strTrim h2.item) = [] →
        procMapped (tbl.filter (fun x => x.cid = cid)) h2 = "")
  ∧ (shortlist_save tbl cid cname forms newItem).filter (fun x => x.cid = cid)
      = shortlistNewRows tbl cid cname forms newItem
  ∧ (shortlist_save tbl cid cname forms newItem).filter (fun x => !(x.cid = cid))
      = tbl.filter (fun x => !(x.cid = cid)) := by
  have hemp : (shortlistNewRows tbl cid cname forms newItem).isEmpty = false := by
    simpa [List.isEmpty_iff] using hnonempty
  have hsave : shortlist_save tbl cid cname forms newItem
      = (tbl.filter (fun x => !(x.cid = cid)))
        ++ shortlistNewRows tbl cid cname forms newItem := by
    simp [shortlist_save, hemp]
  refine ⟨?_, ?_, ?_, ?_, ?_⟩
  · simp [procRecv, hup]
  · rw [procMapped, hgup]
    simp only [if_neg hgitem, hmatch]
    rw [normalizeMapped]
    simp [hqtrim, hqnan]
  · intro h2 hup2 hemp2
    rw [procMapped, hup2]
    by_cases he : strTrim h2.item = ""
    · rw [if_pos he]
    · simp only [if_neg he, hemp2]
  · rw [hsave, List.filter_append]
    have h1 : (tbl.filter (fun x => !(x.cid = cid))).filter (fun x => x.cid = cid) = [] := by
      refine List.filter_eq_nil_iff.2 ?_
      intro a ha
      have := (List.mem_filter.1 ha).2
      simpa using this
    have h2 : (shortlistNewRows tbl cid cname forms newItem).filter
        (fun x => x.cid = cid) = shortlistNewRows tbl cid cname forms newItem := by
      refine List.filter_eq_self.2 ?_
      intro a ha
      simpa using shortlistNewRows_cid tbl cid cname forms newItem a ha
    rw [h1, h2, List.nil_append]
  · rw [hsave, List.filter_append]
    have h1 : (tbl.filter (fun x => !(x.cid = cid))).filter (fun x => !(x.cid = cid))
        = tbl.filter (fun x => !(x.cid = cid)) := by
      refine List.filter_eq_self.2 ?_
      intro a ha
      exact (List.mem_filter.1 ha).2
    have h2 : (shortlistNewRows tbl cid cname forms newItem).filter
        (fun x => !(x.cid = cid)) = [] := by
      refine List.filter_eq_nil_iff.2 ?_
      intro a ha
      have := shortlistNewRows_cid tbl cid cname forms newItem a ha
      simp [this]
    rw [h1, h2, List.append_nil]

/-- Witness for C8: a concrete save with one kept and one uploaded item;
the uploaded one gets flag Yes. -/
theorem shortlist_policy_witness :
    procRecv ⟨"Visa", "maybe", "", some "p2"⟩ = "Yes" :=
  (shortlist_policy [⟨"C1", "Jane", "Passport", "Yes", "", "path1"⟩] "C1" "Jane"
      [⟨"Passport", "no", "", none⟩, ⟨"Visa", "maybe", "", some "p2"⟩] ""
      ⟨"Visa", "maybe", "", some "p2"⟩ ⟨"Passport", "no", "", none⟩ "p2"
      ⟨"C1", "Jane", "Passport", "Yes", "", "path1"⟩ []
      rfl rfl (by decide) (by decide) (by decide) (by decide) (by decide)).1

/-- C9: marking done a row whose status is First Interview changes only
that row's status to First Interview Completed, undo on a row whose
status is First Interview Completed changes only that row's status back,
done followed by undo restores the table, and either operation on a row
with an unexpected status changes nothing. -/
theorem interview_round_done_undo (iv : List InterviewRow) (idx : Nat) (r : InterviewRow)
    (hget : iv[idx]? = some r) :
    (r.status = "First Interview" →
      interview_done_first iv idx
          = iv.set idx { r with status := "First Interview Completed" }
        ∧ ∀ j, j ≠ idx → (interview_done_first iv idx)[j]? = iv[j]?)
  ∧ (r.status = "First Interview Completed" →
      interview_undo_first iv idx = iv.set idx { r with status := "First Interview" }
        ∧ ∀ j, j ≠ idx → (interview_undo_first iv idx)[j]? = iv[j]?)
  ∧ (r.status = "First Interview" →
      interview_undo_first (interview_done_first iv idx) idx = iv)
  ∧ (r.status ≠ "First Interview" → interview_done_first iv idx = iv)
  ∧ (r.status ≠ "First Interview Completed" → interview_undo_first iv idx = iv) := by
  refine ⟨?_, ?_, ?_, ?_, ?_⟩
  · intro hst
    have heq : interview_done_first iv idx
        = iv.set idx { r with status := "First Interview Completed" } := by
      simp [interview_done_first, hget, hst]
    refine ⟨heq, ?_⟩
    intro j hj
    rw [heq]
    exact List.getElem?_set_ne (Ne.symm hj)
  · intro hst
    have heq : interview_undo_first iv idx
        = iv.set idx { r with status := "First Interview" } := by
      simp [interview_undo_first, hget, hst]
    refine ⟨heq, ?_⟩
    intro j hj
    rw [heq]
    exact List.getElem?_set_ne (Ne.symm hj)
  · intro hst
    obtain ⟨a1, a2, a3, a4, a5, a6, a7, a8, a9, st, a11⟩ := r
    have hst2 : st = "First Interview" := hst
    subst hst2
    have hlt : idx < iv.length := (List.getElem?_eq_some.1 hget).1
    have heq : interview_done_first iv idx
        = iv.set idx ⟨a1, a2, a3, a4, a5, a6, a7, a8, a9, "First Interview Completed", a11⟩ := by
      simp [interview_done_first, hget]
    rw [heq]
    have hget2 : (iv.set idx
        ⟨a1, a2, a3, a4, a5, a6, a7, a8, a9, "First Interview Completed", a11⟩)[idx]?
        = some ⟨a1, a2, a3, a4, a5, a6, a7, a8, a9, "First Interview Completed", a11⟩ :=
      List.getElem?_set_self hlt
    simp only [interview_undo_first, hget2]
    rw [List.set_set]
    exact set_self_of_getElem? iv idx _ (by simpa using hget)
  · intro hst
    simp [interview_done_first, hget, hst]
  · intro hst
    simp [interview_undo_first, hget, hst]

/-- Witness for C9: done then undo on a concrete one-row table restores
the table. -/
theorem interview_round_done_undo_witness :
    interview_undo_first (interview_done_first
        [⟨"C1", "n", "p", "d", "t", "Online", "L", "M", "I", "First Interview", ""⟩] 0) 0
      = [⟨"C1", "n", "p", "d", "t", "Online", "L", "M", "I", "First Interview", ""⟩] :=
  (interview_round_done_undo
      [⟨"C1", "n", "p", "d", "t", "Online", "L", "M", "I", "First Interview", ""⟩] 0
      ⟨"C1", "n", "p", "d", "t", "Online", "L", "M", "I", "First Interview", ""⟩
      rfl).2.2.1 rfl

/-- C10: the four round-status routes perform no login or role check, so
their effect on the Interviews table is identical for every caller
context including the unauthenticated one, whereas a role-gated mutating
route such as interview_delete behaves differently for an unauthenticated
caller and an admin. -/
theorem round_ops_ungated (ctx ctx2 : Ctx) (iv : List InterviewRow) (idx : Nat) :
    doneFirstRoute ctx iv idx = doneFirstRoute ctx2 iv idx
  ∧ undoFirstRoute ctx iv idx = undoFirstRoute ctx2 iv idx
  ∧ doneSecondRoute ctx iv idx = doneSecondRoute ctx2 iv idx
  ∧ undoSecondRoute ctx iv idx = undoSecondRoute ctx2 iv idx
  ∧ doneFirstRoute ctx iv idx = interview_done_first iv idx
  ∧ interviewDeleteRoute none
        [⟨"C1", "n", "p", "d", "t", "Online", "L", "M", "I", "First Interview", ""⟩] 0
      ≠ interviewDeleteRoute (some Role.admin)
        [⟨"C1", "n", "p", "d", "t", "Online", "L", "M", "I", "First Interview", ""⟩] 0 :=
  ⟨rfl, rfl, rfl, rfl, rfl, by decide⟩

end HRRec
